import Mathlib

/-!
Verification development for the AIKA terminal agent (src/aika.py).

The Python source is shallowly embedded below:
pure string processing (`_split_text_into_blocks`, `append_sources_to_text`)
becomes Lean string functions over `List Char` / `List String`;
the stateful tool layer (`run_tool_call`, the caches, the budget counters,
the source collector) becomes explicit state passing over a `ToolState`
record, with the external world (network, filesystem) abstracted as an
`Env` of deterministic oracle functions plus an explicit log of the
external operations actually performed; the agent loop in `main` becomes
a well-founded recursion on the step counter.
-/

namespace AIKA

/-- Whitespace characters: embedding of the ASCII part of Python str.strip
whitespace (the source never feeds non-ASCII whitespace to strip). -/
def isWS (c : Char) : Bool :=
  c = ' ' || c = '\t' || c = '\n' || c = '\r' || c = '\x0b' || c = '\x0c'

/-- Embedding of Python str.strip(): drop whitespace from both ends. -/
def pyStrip (s : String) : String :=
  (((s.data.dropWhile isWS).reverse.dropWhile isWS).reverse).asString

/-- Helper for `pyLines`: accumulate the current line (reversed) while
scanning the character list. -/
def pyLinesAux : List Char → List Char → List String
  | [], acc => if acc.isEmpty then [] else [acc.reverse.asString]
  | '\n' :: rest, acc => acc.reverse.asString :: pyLinesAux rest []
  | c :: rest, acc => pyLinesAux rest (c :: acc)

/-- Embedding of Python str.splitlines() for newline-separated text:
a trailing newline produces no extra empty line, the empty string
produces no lines. -/
def pyLines (s : String) : List String :=
  pyLinesAux s.data []

/-- Embedding of "\n".join(xs). -/
def joinNL : List String → String
  | [] => ""
  | [x] => x
  | x :: y :: rest => x ++ "\n" ++ joinNL (y :: rest)

/-- One block produced by `_split_text_into_blocks`: the Python tuple
(kind, content, language), where kind is "text" or "code". -/
structure Block where
  kind : String
  content : String
  lang : String
deriving DecidableEq

/-- Embedding of the guard at src/aika.py:162: both "(" and ")" occur in
the stripped line. -/
def hasLangParens (stripped : String) : Bool :=
  stripped.data.contains '(' && stripped.data.contains ')'

/-- Embedding of the language parse at src/aika.py:161-166:
stripped.split("(", 1)[1].split(")", 1)[0].strip() or "text", guarded by
the parenthesis check; "text" when parentheses are absent. -/
def parseLang (stripped : String) : String :=
  if hasLangParens stripped then
    let lang :=
      pyStrip (((stripped.data.dropWhile (fun c => c ≠ '(')).drop 1).takeWhile
        (fun c => c ≠ ')')).asString
    if lang = "" then "text" else lang
  else "text"

/-- Embedding of the opener test at src/aika.py:158:
stripped.startswith("BEGIN CODE"). -/
def isBeginMarker (line : String) : Bool :=
  "BEGIN CODE".data.isPrefixOf (pyStrip line).data

/-- Embedding of flush_text at src/aika.py:150-154: a pending prose buffer
becomes one text block only when non-empty. -/
def flushText (buf : List String) : List Block :=
  if buf.isEmpty then [] else [⟨"text", joinNL buf, ""⟩]

/-- Embedding of the line loop of `_split_text_into_blocks`
(src/aika.py:156-190), with the mutable locals (buf, in_code, code_lang,
code_buf) passed as arguments.  The source's if-chain first tests
"not in_code and stripped.startswith(BEGIN CODE)", then
"in_code and stripped == END CODE", then "in_code"; here that chain is
written as a case split on the in_code flag, which decides the same
branches. -/
def splitBlocksAux : List String → List String → Bool → String → List String → List Block
  | [], buf, false, _, _ => flushText buf
  | [], _, true, codeLang, codeBuf => [⟨"code", joinNL codeBuf, codeLang⟩]
  | line :: rest, buf, false, codeLang, codeBuf =>
      if isBeginMarker line then
        flushText buf ++ splitBlocksAux rest [] true (parseLang (pyStrip line)) []
      else
        splitBlocksAux rest (buf ++ [line]) false codeLang codeBuf
  | line :: rest, buf, true, codeLang, codeBuf =>
      if pyStrip line = "END CODE" then
        ⟨"code", joinNL codeBuf, codeLang⟩ :: splitBlocksAux rest buf false "text" []
      else
        splitBlocksAux rest buf true codeLang (codeBuf ++ [line])

/-- Embedding of `_split_text_into_blocks` (src/aika.py:135-190). -/
def split_text_into_blocks (text : String) : List Block :=
  splitBlocksAux (pyLines text) [] false "text" []

/-- The input lines that the segmenter keeps as content: every line except
the two consumed marker-line kinds (an opener recognized in prose mode and
an END CODE line recognized in code mode). -/
def keptLines : List String → Bool → List String
  | [], _ => []
  | line :: rest, false =>
      if isBeginMarker line then keptLines rest true
      else line :: keptLines rest false
  | line :: rest, true =>
      if pyStrip line = "END CODE" then keptLines rest false
      else line :: keptLines rest true

/-- Line-level view of a pending prose buffer: the piece the buffer will
contribute, before its lines are joined into a content string. -/
def blockPiecesPre (buf : List String) : List (String × List String × String) :=
  if buf.isEmpty then [] else [("text", buf, "")]

/-- Line-level view of `splitBlocksAux`: the same traversal, but each block
is kept as its list of content lines instead of their newline join. -/
def blockPieces : List String → List String → Bool → String → List String →
    List (String × List String × String)
  | [], buf, false, _, _ => blockPiecesPre buf
  | [], _, true, codeLang, codeBuf => [("code", codeBuf, codeLang)]
  | line :: rest, buf, false, codeLang, codeBuf =>
      if isBeginMarker line then
        blockPiecesPre buf ++ blockPieces rest [] true (parseLang (pyStrip line)) []
      else
        blockPieces rest (buf ++ [line]) false codeLang codeBuf
  | line :: rest, buf, true, codeLang, codeBuf =>
      if pyStrip line = "END CODE" then
        ("code", codeBuf, codeLang) :: blockPieces rest buf false "text" []
      else
        blockPieces rest buf true codeLang (codeBuf ++ [line])

/-- External operations actually performed against the outside world
(a network search, a network fetch attempt, a file-write attempt).  The
tool layer appends to this log exactly when the Python code reaches the
corresponding external call. -/
inductive ExtOp where
  | searchOp (query : String) (maxResults : Int)
  | fetchOp (url : String) (maxChars : Int)
  | createOp (filename content : String)
deriving DecidableEq

/-- Parsed tool arguments, as recovered from the JSON payload of a tool
call.  `mismatched` models an argument dict that does not fit the named
callable's signature, which in Python makes fn(**args) raise TypeError
(including the empty dict substituted for unparsable JSON). -/
inductive ToolArgs where
  | search (query : String) (maxResults : Int)
  | fetch (url : String) (maxChars : Int)
  | create (filename content : String)
  | mismatched
deriving DecidableEq

/-- One ToolInvocationRequest: call id, tool name, arguments. -/
structure ToolReq where
  id : String
  name : String
  args : ToolArgs
deriving DecidableEq

/-- The tool-role message dict returned by run_tool_call
(src/aika.py:485-490). -/
structure ToolTurn where
  tool_call_id : String
  role : String
  name : String
  content : String
deriving DecidableEq

/-- Deterministic oracle for the external world.  `searchPayload q n` is
the serialized payload string web_search builds for a fresh (q, n) call
(json.dumps of query/source/results), and `searchResults q n` is the url
field of each entry of the same results list, in order — the two describe
one external answer, so re-parsing the payload yields those urls.
`fetchNet u` is the outcome of the network-plus-extraction part of
fetch_url (requests.get, raise_for_status, BeautifulSoup text extraction
and line normalization): ok with the normalized pre-truncation text, or
error with the exception text.  `createResult f c` is the message
create_file returns (success or caught error). -/
structure Env where
  searchPayload : String → Int → String
  searchResults : String → Int → List String
  fetchNet : String → Except String String
  createResult : String → String → String

/-- The mutable state the tool layer touches: the per-turn budget counters
(dict with default 0), the two process-lifetime caches, the per-turn
source list with its companion seen set, and the log of performed
external operations. -/
structure ToolState where
  counts : String → Nat
  searchCache : List ((String × Int) × String)
  fetchCache : List ((String × Int) × String)
  sources : List String
  seen : List String
  log : List ExtOp

/-- Association-list lookup, embedding Python dict membership/indexing for
the cache dicts keyed by (string, int). -/
def alookup (k : String × Int) : List ((String × Int) × String) → Option String
  | [] => none
  | (k2, v) :: rest => if k2 = k then some v else alookup k rest

/-- Embedding of Python s[:n] (slice from the start; a negative n counts
from the end, clamped at zero). -/
def pySliceTo (s : String) (n : Int) : String :=
  if n < 0 then ((s.data.take ((s.data.length : Int) + n).toNat).asString)
  else (s.data.take n.toNat).asString

/-- Model of json.dumps of fetch_url's success dict
{"url": url, "status": "ok", "content": content}. -/
def fetchOkJson (url content : String) : String :=
  "\x7b" ++ "\"url\": \"" ++ url ++ "\", \"status\": \"ok\", \"content\": \""
    ++ content ++ "\"" ++ "\x7d"

/-- Model of json.dumps of fetch_url's failure dict
{"url": url, "status": "error", "content": "", "error": err}. -/
def fetchErrJson (url err : String) : String :=
  "\x7b" ++ "\"url\": \"" ++ url ++ "\", \"status\": \"error\", \"content\": \"\", \"error\": \""
    ++ err ++ "\"" ++ "\x7d"

/-- Embedding of create_file (src/aika.py:242-250): the filesystem outcome
(success message or error string) is abstracted into env.createResult; the
function catches every exception itself, performs the write attempt on
every call, and has NO cache. -/
def create_file (env : Env) (filename content : String) (log : List ExtOp) :
    String × List ExtOp :=
  (env.createResult filename content, log ++ [.createOp filename content])

/-- Embedding of web_search (src/aika.py:252-311): on a hit in
_SEARCH_CACHE keyed by (query, int(max_results)) the cached payload is
returned with no external call; on a miss the whole DDG / instant-answer
computation (abstracted as env.searchPayload) runs, is stored, and is
returned.  The function never raises: every network path inside it is
wrapped in try/except. -/
def web_search (env : Env) (query : String) (max_results : Int)
    (cache : List ((String × Int) × String)) (log : List ExtOp) :
    String × List ((String × Int) × String) × List ExtOp :=
  let key := (query, max_results)
  match alookup key cache with
  | some v => (v, cache, log)
  | none =>
      let payload := env.searchPayload query max_results
      (payload, (key, payload) :: cache, log ++ [.searchOp query max_results])

/-- Embedding of fetch_url (src/aika.py:313-347): on a hit in _FETCH_CACHE
keyed by (url, int(max_chars)) the cached payload is returned with no
network attempt; on a miss the network attempt runs: on success the
extracted text is truncated to max_chars (with a marker appended when
cut) and serialized as the ok payload, on any exception the error payload
is built — and in BOTH branches the payload is stored in the cache and
returned. -/
def fetch_url (env : Env) (url : String) (max_chars : Int)
    (cache : List ((String × Int) × String)) (log : List ExtOp) :
    String × List ((String × Int) × String) × List ExtOp :=
  let key := (url, max_chars)
  match alookup key cache with
  | some v => (v, cache, log)
  | none =>
      match env.fetchNet url with
      | .ok raw =>
          let content :=
            if (raw.length : Int) > max_chars then pySliceTo raw max_chars ++ "\n...[truncated]"
            else raw
          let payload := fetchOkJson url content
          (payload, (key, payload) :: cache, log ++ [.fetchOp url max_chars])
      | .error e =>
          let payload := fetchErrJson url e
          (payload, (key, payload) :: cache, log ++ [.fetchOp url max_chars])

/-- Embedding of Python str.startswith. -/
def pyStartsWith (s p : String) : Bool :=
  p.data.isPrefixOf s.data

/-- Embedding of _add_source (src/aika.py:424-432): skip empty urls, skip
urls without an http/https scheme, skip urls already seen; otherwise
append to the list and record in the seen set. -/
def add_source (url : String) (lst seen : List String) : List String × List String :=
  if url = "" then (lst, seen)
  else if ¬ (pyStartsWith url "http://" || pyStartsWith url "https://") then (lst, seen)
  else if url ∈ seen then (lst, seen)
  else (lst ++ [url], seen ++ [url])

/-- Embedding of the web_search source-extraction loop
(src/aika.py:475-478): add each result url, and break as soon as the list
length has reached the configured limit — the check runs only AFTER the
add. -/
def addSearchUrls (srcLimit : Int) : List String → List String → List String →
    List String × List String
  | [], lst, seen => (lst, seen)
  | u :: rest, lst, seen =>
      let p := add_source u lst seen
      if (p.1.length : Int) ≥ srcLimit then p
      else addSearchUrls srcLimit rest p.1 p.2

/-- The tool-role message dict literal of run_tool_call. -/
def mkToolTurn (req : ToolReq) (content : String) : ToolTurn :=
  ⟨req.id, "tool", req.name, content⟩

/-- Model of the error string produced when fn(**function_args) raises
TypeError (src/aika.py:467-468); the Python message embeds the exception
text, modelled here as the fixed tail. -/
def typeErrorMsg (name : String) : String :=
  "Error calling '" ++ name ++ "': TypeError"

/-- Embedding of counts[name] = counts.get(name, 0) + 1
(src/aika.py:466). -/
def bumpCount (counts : String → Nat) (name : String) : String → Nat :=
  fun m => if m = name then counts name + 1 else counts m

/-- Embedding of the dispatch-and-extract part of run_tool_call
(src/aika.py:460-490): look the name up in AVAILABLE_FUNCTIONS, execute
the callable (counting it on success, converting a signature mismatch to
an error string without counting), then run the source extraction —
result urls for web_search (the parse of the payload recovers
env.searchResults), the single argument url for fetch_url (both payload
shapes embed it), nothing for other names or unparsable results. -/
def run_tool_dispatch (env : Env) (srcLimit : Int) (req : ToolReq) (s : ToolState) :
    ToolTurn × ToolState :=
  if req.name = "create_file" then
    match req.args with
    | .create f c =>
        let r := create_file env f c s.log
        (mkToolTurn req r.1,
          { s with counts := bumpCount s.counts req.name, log := r.2 })
    | _ => (mkToolTurn req (typeErrorMsg req.name), s)
  else if req.name = "web_search" then
    match req.args with
    | .search q n =>
        let r := web_search env q n s.searchCache s.log
        let src := addSearchUrls srcLimit (env.searchResults q n) s.sources s.seen
        (mkToolTurn req r.1,
          { s with counts := bumpCount s.counts req.name,
                   searchCache := r.2.1, log := r.2.2,
                   sources := src.1, seen := src.2 })
    | _ => (mkToolTurn req (typeErrorMsg req.name), s)
  else if req.name = "fetch_url" then
    match req.args with
    | .fetch u m =>
        let r := fetch_url env u m s.fetchCache s.log
        let src := add_source u s.sources s.seen
        (mkToolTurn req r.1,
          { s with counts := bumpCount s.counts req.name,
                   fetchCache := r.2.1, log := r.2.2,
                   sources := src.1, seen := src.2 })
    | _ => (mkToolTurn req (typeErrorMsg req.name), s)
  else
    (mkToolTurn req ("Error: unknown tool '" ++ req.name ++ "'."), s)

/-- Embedding of run_tool_call (src/aika.py:434-490): if the tool name is
budgeted and its count has reached the limit, short-circuit with the
refusal message and an untouched state; otherwise dispatch. -/
def run_tool_call (env : Env) (srcLimit : Int) (budgets : String → Option Int)
    (req : ToolReq) (s : ToolState) : ToolTurn × ToolState :=
  match budgets req.name with
  | some limit =>
      if (s.counts req.name : Int) ≥ limit then
        (mkToolTurn req ("Budget exceeded for " ++ req.name ++ " (limit "
          ++ toString limit ++ "). Provide the best answer with existing info."), s)
      else run_tool_dispatch env srcLimit req s
  | none => run_tool_dispatch env srcLimit req s

/-- The budgets dict main passes to run_tool_call (src/aika.py:728):
web_search and fetch_url budgeted, nothing else. -/
def mainBudgets (webLimit fetchLimit : Int) : String → Option Int :=
  fun n => if n = "web_search" then some webLimit
    else if n = "fetch_url" then some fetchLimit else none

/-- Run a sequence of tool dispatches within one user turn. -/
def run_tool_calls (env : Env) (srcLimit : Int) (budgets : String → Option Int) :
    List ToolReq → ToolState → ToolState
  | [], s => s
  | r :: rest, s =>
      run_tool_calls env srcLimit budgets rest (run_tool_call env srcLimit budgets r s).2

/-- Embedding of the per-user-turn reset in main (src/aika.py:704-706):
fresh zero counters and an empty source list/seen set; the caches and the
external world persist. -/
def resetPerTurn (s : ToolState) : ToolState :=
  { s with counts := fun _ => 0, sources := [], seen := [] }

/-- One step of a whole interactive session: a tool dispatch, or the start
of a new user turn. -/
inductive SessionStep where
  | call (req : ToolReq)
  | newTurn
deriving DecidableEq

/-- Run a sequence of session steps. -/
def applySession (env : Env) (srcLimit : Int) (budgets : String → Option Int) :
    List SessionStep → ToolState → ToolState
  | [], s => s
  | .call r :: rest, s =>
      applySession env srcLimit budgets rest (run_tool_call env srcLimit budgets r s).2
  | .newTurn :: rest, s => applySession env srcLimit budgets rest (resetPerTurn s)

/-- The tool state at process start: zero counters, empty caches, empty
sources, no external operations performed yet. -/
def initToolState : ToolState :=
  ⟨fun _ => 0, [], [], [], [], []⟩

/-- A concrete environment used by witnesses: one fixed search answer with
six distinct http urls, a failing network fetch, and the usual create_file
success message. -/
def witnessEnv : Env where
  searchPayload := fun q _ => "\x7b" ++ "\"query\": \"" ++ q ++ "\"" ++ "\x7d"
  searchResults := fun q _ =>
    if q = "q6" then
      ["https://a.example/1", "https://a.example/2", "https://a.example/3",
        "https://a.example/4", "https://a.example/5", "https://a.example/6"]
    else []
  fetchNet := fun _ => .error "boom"
  createResult := fun f _ => "Successfully created the file '" ++ f ++ "'."

/-- A url that _add_source accepts: non-empty and carrying an http/https
scheme. -/
def validUrl (u : String) : Bool :=
  if u = "" then false else pyStartsWith u "http://" || pyStartsWith u "https://"

/-- The source-collector invariant: the list is duplicate-free, every
entry is a valid http/https url, and the companion seen set holds exactly
the listed urls. -/
def sourcesInv (lst seen : List String) : Prop :=
  lst.Nodup ∧ (∀ u ∈ lst, validUrl u = true) ∧ (∀ u : String, u ∈ seen ↔ u ∈ lst)

/-- A concrete tool state whose web_search budget is already exhausted
under the default limit 2, used by witnesses. -/
def exhaustedState : ToolState :=
  { initToolState with counts := fun n => if n = "web_search" then 2 else 0 }

/-- One message of the conversation transcript: role plus the optional
fields the source's dicts carry (content, tool_calls for assistant turns,
tool_call_id and name for tool turns). -/
structure Turn where
  role : String
  content : Option String := none
  tool_calls : List ToolReq := []
  tool_call_id : String := ""
  name : String := ""
deriving DecidableEq

/-- The assistant record one tools-enabled chat call returns. -/
structure ModelReply where
  content : Option String
  tool_calls : List ToolReq
deriving DecidableEq

/-- The model endpoint: `model` is a tools-enabled chat call as issued by
the main loop; `finalContent` is the tools-disabled call of
print_final_answer composed with "content or empty" (an endpoint failure
in print_final_answer also produces a plain string, the error text, so
both paths are covered by one string-valued oracle). -/
structure ModelEnv where
  model : List Turn → ModelReply
  finalContent : List Turn → String

/-- Embedding of Python str.rstrip(). -/
def pyRstrip (s : String) : String :=
  ((s.data.reverse.dropWhile isWS).reverse).asString

/-- Embedding of Python list slicing xs[:n] (negative n counts from the
end, clamped at zero). -/
def pySliceList (l : List String) (n : Int) : List String :=
  if n < 0 then l.take ((l.length : Int) + n).toNat else l.take n.toNat

/-- Embedding of append_sources_to_text (src/aika.py:492-499): nothing for
an empty source list; otherwise the rstripped text, a blank line, the
Sources: header, and one "- url" line per collected url up to the limit. -/
def append_sources_to_text (text : String) (sources : List String)
    (srcLimit : Int) : String :=
  if sources = [] then text
  else
    pyRstrip text ++ "\n\nSources:\n"
      ++ String.join ((pySliceList sources srcLimit).map (fun url => "- " ++ url ++ "\n"))

/-- The one-shot system directive print_final_answer appends for its
tools-disabled call (src/aika.py:506-515); only its role matters to the
claims. -/
def finalDirectiveTurn : Turn :=
  { role := "system", content := some "Final answer only. Do not call any tools in this turn." }

/-- Embedding of print_final_answer (src/aika.py:501-531): one
tools-disabled model call on the transcript plus the directive, then the
Sources section appended when the flag is set and sources exist. -/
def print_final_answer (menv : ModelEnv) (alwaysShowSources : Bool) (srcLimit : Int)
    (hist : List Turn) (sources : List String) : String :=
  let text := menv.finalContent (hist ++ [finalDirectiveTurn])
  if alwaysShowSources ∧ sources ≠ [] then append_sources_to_text text sources srcLimit
  else text

/-- The synthetic system turn main appends when the tool loop exceeds 6
steps (src/aika.py:736-739). -/
def ceilingTurn : Turn :=
  { role := "system",
    content := some
      "Tool loop exceeded 6 steps; provide your best answer now with available info. Do not call tools." }

/-- Embedding of the per-batch tool execution in main (src/aika.py:723-732):
each requested call is dispatched in order and its tool turn appended. -/
def runToolBatch (env : Env) (srcLimit : Int) (budgets : String → Option Int) :
    List ToolReq → List Turn → ToolState → List Turn × ToolState
  | [], hist, s => (hist, s)
  | tc :: rest, hist, s =>
      let r := run_tool_call env srcLimit budgets tc s
      runToolBatch env srcLimit budgets rest
        (hist ++ [{ role := "tool", content := some r.1.content,
                    tool_call_id := r.1.tool_call_id, name := r.1.name }]) r.2

/-- How one run of the inner while-loop of main ended: by hitting the step
ceiling, or by a reply without tool calls (carrying its content). -/
inductive LoopExit where
  | ceiling
  | reply (content : Option String)
deriving DecidableEq

/-- Embedding of the inner while-loop of main (src/aika.py:708-757): call
the model with tools enabled; a reply without tool calls ends the loop
with that reply; otherwise execute the batch, increment step_count, and
if step_count > 6 append the synthetic system turn and stop, else loop.
Returns the transcript, the tool state, the final step_count (the number
of tool-executing iterations), and how the loop ended. -/
def agentLoopAux (menv : ModelEnv) (env : Env) (srcLimit : Int)
    (budgets : String → Option Int) (hist : List Turn) (s : ToolState)
    (stepCount : Nat) : List Turn × ToolState × Nat × LoopExit :=
  let reply := menv.model hist
  let hist2 := hist ++ [{ role := "assistant", content := reply.content,
                          tool_calls := reply.tool_calls }]
  if reply.tool_calls = [] then
    (hist2, s, stepCount, .reply reply.content)
  else
    let hs := runToolBatch env srcLimit budgets reply.tool_calls hist2 s
    if h : 6 < stepCount + 1 then
      (hs.1 ++ [ceilingTurn], hs.2, stepCount + 1, .ceiling)
    else
      agentLoopAux menv env srcLimit budgets hs.1 hs.2 (stepCount + 1)
termination_by 7 - stepCount
decreasing_by omega

/-- Embedding of one user turn of main (src/aika.py:700-765): append the
user turn, reset the per-turn counters and sources, run the loop; a reply
with truthy content is the answer (with sources appended when enabled);
an empty reply or a ceiling exit forces the final answer with tools
disabled and appends it as an assistant turn.  Returns the transcript,
the tool state, the tool-executing iteration count, and the answer. -/
def runUserTurn (menv : ModelEnv) (env : Env) (srcLimit : Int)
    (budgets : String → Option Int) (alwaysShowSources : Bool)
    (hist0 : List Turn) (userText : String) (s0 : ToolState) :
    List Turn × ToolState × Nat × String :=
  let hist1 := hist0 ++ [{ role := "user", content := some userText }]
  let s1 := resetPerTurn s0
  let r := agentLoopAux menv env srcLimit budgets hist1 s1 0
  match r.2.2.2 with
  | .reply c =>
      if c.getD "" ≠ "" then
        let text :=
          if alwaysShowSources ∧ r.2.1.sources ≠ [] then
            append_sources_to_text (c.getD "") r.2.1.sources srcLimit
          else c.getD ""
        (r.1, r.2.1, r.2.2.1, text)
      else
        let ft := print_final_answer menv alwaysShowSources srcLimit r.1 r.2.1.sources
        (r.1 ++ [{ role := "assistant", content := some ft }], r.2.1, r.2.2.1, ft)
  | .ceiling =>
      let ft := print_final_answer menv alwaysShowSources srcLimit r.1 r.2.1.sources
      (r.1 ++ [{ role := "assistant", content := some ft }], r.2.1, r.2.2.1, ft)

/-- A simulated model that requests a tool call on every reply, used by
the C2 witnesses. -/
def alwaysToolModel : ModelEnv where
  model := fun _ =>
    { content := none,
      tool_calls := [⟨"t1", "fetch_url", .fetch "https://x.example/" 4000⟩] }
  finalContent := fun _ => "final answer"

/-- Modelled from the claim wording of C7, for refinement comparison only
(not from the source): the trimmed line "exactly matches BEGIN CODE
optionally followed by a parenthesized language tag". -/
def specOpensCodeRun (line : String) : Bool :=
  pyStrip line = "BEGIN CODE"
    || ("BEGIN CODE (".data.isPrefixOf (pyStrip line).data
        && ")".data.isSuffixOf (pyStrip line).data)

theorem flushText_eq_pre (buf : List String) :
    flushText buf =
      (blockPiecesPre buf).map (fun p => ⟨p.1, joinNL p.2.1, p.2.2⟩) := by
  unfold flushText blockPiecesPre
  split <;> simp

theorem splitBlocksAux_eq_pieces :
    ∀ (ls buf : List String) (inCode : Bool) (codeLang : String) (codeBuf : List String),
      splitBlocksAux ls buf inCode codeLang codeBuf =
        (blockPieces ls buf inCode codeLang codeBuf).map
          (fun p => ⟨p.1, joinNL p.2.1, p.2.2⟩) := by
  intro ls
  induction ls with
  | nil =>
      intro buf inCode codeLang codeBuf
      cases inCode
      · simpa [splitBlocksAux, blockPieces] using flushText_eq_pre buf
      · simp [splitBlocksAux, blockPieces]
  | cons line rest ih =>
      intro buf inCode codeLang codeBuf
      cases inCode
      · by_cases h1 : isBeginMarker line
        · simp only [splitBlocksAux, blockPieces, if_pos h1, List.map_append,
            flushText_eq_pre, ih]
        · simp only [splitBlocksAux, blockPieces, if_neg h1, ih]
      · by_cases h2 : pyStrip line = "END CODE"
        · simp only [splitBlocksAux, blockPieces, if_pos h2, List.map_cons, ih]
        · simp only [splitBlocksAux, blockPieces, if_neg h2, ih]

theorem blockPieces_flatten (ls : List String) :
    (∀ (buf : List String) (codeLang : String) (codeBuf : List String),
        ((blockPieces ls buf false codeLang codeBuf).map (fun p => p.2.1)).flatten
          = buf ++ keptLines ls false)
    ∧ (∀ (codeLang : String) (codeBuf : List String),
        ((blockPieces ls [] true codeLang codeBuf).map (fun p => p.2.1)).flatten
          = codeBuf ++ keptLines ls true) := by
  induction ls with
  | nil =>
      refine ⟨fun buf codeLang codeBuf => ?_, fun codeLang codeBuf => ?_⟩
      · unfold blockPieces blockPiecesPre keptLines
        split
        · simp_all [List.isEmpty_iff]
        · simp
      · simp [blockPieces, keptLines]
  | cons line rest ih =>
      refine ⟨fun buf codeLang codeBuf => ?_, fun codeLang codeBuf => ?_⟩
      · by_cases h1 : isBeginMarker line
        · simp only [blockPieces, keptLines, if_pos h1, List.map_append,
            List.flatten_append, ih.2, List.nil_append]
          unfold blockPiecesPre
          split
          · simp_all [List.isEmpty_iff]
          · simp
        · simp only [blockPieces, keptLines, if_neg h1, ih.1]
          simp
      · by_cases h2 : pyStrip line = "END CODE"
        · simp only [blockPieces, keptLines, if_pos h2, List.map_cons,
            List.flatten_cons, ih.1, List.nil_append]
        · simp only [blockPieces, keptLines, if_neg h2, ih.2]
          simp

theorem blockPieces_piece_sound :
    ∀ (ls buf : List String) (inCode : Bool) (codeLang : String) (codeBuf : List String),
      ∀ p ∈ blockPieces ls buf inCode codeLang codeBuf,
        (p.1 = "text" ∧ p.2.1 ≠ []) ∨ p.1 = "code" := by
  intro ls
  induction ls with
  | nil =>
      intro buf inCode codeLang codeBuf p hp
      cases inCode
      · unfold blockPieces blockPiecesPre at hp
        split at hp
        · simp at hp
        · simp at hp
          subst hp
          exact Or.inl ⟨rfl, by simp_all [List.isEmpty_iff]⟩
      · simp only [blockPieces, List.mem_singleton] at hp
        subst hp
        exact Or.inr rfl
  | cons line rest ih =>
      intro buf inCode codeLang codeBuf p hp
      cases inCode
      · by_cases h1 : isBeginMarker line
        · simp only [blockPieces, if_pos h1, List.mem_append] at hp
          rcases hp with hp | hp
          · unfold blockPiecesPre at hp
            split at hp
            · simp at hp
            · simp at hp
              subst hp
              exact Or.inl ⟨rfl, by simp_all [List.isEmpty_iff]⟩
          · exact ih _ _ _ _ p hp
        · simp only [blockPieces, if_neg h1] at hp
          exact ih _ _ _ _ p hp
      · by_cases h2 : pyStrip line = "END CODE"
        · simp only [blockPieces, if_pos h2, List.mem_cons] at hp
          rcases hp with hp | hp
          · subst hp
            exact Or.inr rfl
          · exact ih _ _ _ _ p hp
        · simp only [blockPieces, if_neg h2] at hp
          exact ih _ _ _ _ p hp

theorem joinNL_cons_cons (x y : String) (l : List String) :
    joinNL (x :: y :: l) = x ++ "\n" ++ joinNL (y :: l) := rfl

theorem joinNL_append (p : List String) :
    ∀ q : List String, p ≠ [] → q ≠ [] →
      joinNL (p ++ q) = joinNL p ++ "\n" ++ joinNL q := by
  induction p with
  | nil => intro q hp _; cases hp rfl
  | cons a p ih =>
      intro q _ hq
      cases p with
      | nil =>
          cases q with
          | nil => cases hq rfl
          | cons b q' => rfl
      | cons b p' =>
          have h := ih q (by simp) hq
          calc joinNL ((a :: b :: p') ++ q)
              = a ++ "\n" ++ joinNL ((b :: p') ++ q) := rfl
            _ = a ++ "\n" ++ (joinNL (b :: p') ++ "\n" ++ joinNL q) := by rw [h]
            _ = (a ++ "\n" ++ joinNL (b :: p')) ++ "\n" ++ joinNL q := by
                  simp [String.append_assoc]
            _ = joinNL (a :: b :: p') ++ "\n" ++ joinNL q := rfl

theorem joinNL_map_flatten (ps : List (List String)) (h : ∀ p ∈ ps, p ≠ []) :
    joinNL (ps.map joinNL) = joinNL ps.flatten := by
  induction ps with
  | nil => rfl
  | cons p ps ih =>
      cases ps with
      | nil => simp [joinNL]
      | cons q ps' =>
          have hq2 : (q :: ps').flatten ≠ [] := by
            have hq : q ≠ [] := h q (by simp)
            simp only [List.flatten_cons]
            intro hcon
            exact hq (List.append_eq_nil.mp hcon).1
          have hmap : joinNL ((q :: ps').map joinNL) = joinNL (q :: ps').flatten :=
            ih (fun r hr => h r (List.mem_cons_of_mem _ hr))
          rw [List.map_cons,
            show joinNL (joinNL p :: (q :: ps').map joinNL)
              = joinNL p ++ "\n" ++ joinNL ((q :: ps').map joinNL) from rfl,
            hmap,
            show (p :: q :: ps').flatten = p ++ (q :: ps').flatten from rfl,
            joinNL_append p _ (h p (by simp)) hq2]

theorem splitBlocksAux_code_head (ls : List String) :
    ∀ (buf codeBuf : List String) (codeLang : String),
      ∃ c, (splitBlocksAux ls buf true codeLang codeBuf).head? =
        some ⟨"code", c, codeLang⟩ := by
  induction ls with
  | nil => intro buf codeBuf codeLang; exact ⟨joinNL codeBuf, rfl⟩
  | cons line rest ih =>
      intro buf codeBuf codeLang
      by_cases h2 : pyStrip line = "END CODE"
      · exact ⟨joinNL codeBuf, by simp [splitBlocksAux, if_pos h2]⟩
      · simpa [splitBlocksAux, if_neg h2] using ih buf (codeBuf ++ [line]) codeLang

theorem splitBlocksAux_text_head (ls : List String) :
    ∀ (buf : List String) (codeLang : String) (codeBuf : List String), buf ≠ [] →
      ∃ extra, (splitBlocksAux ls buf false codeLang codeBuf).head? =
        some ⟨"text", joinNL (buf ++ extra), ""⟩ := by
  induction ls with
  | nil =>
      intro buf codeLang codeBuf hbuf
      refine ⟨[], ?_⟩
      simp [splitBlocksAux, flushText, List.isEmpty_iff, hbuf]
  | cons line rest ih =>
      intro buf codeLang codeBuf hbuf
      by_cases h1 : isBeginMarker line
      · refine ⟨[], ?_⟩
        simp [splitBlocksAux, if_pos h1, flushText, List.isEmpty_iff, hbuf]
      · obtain ⟨extra, hx⟩ := ih (buf ++ [line]) codeLang codeBuf (by simp)
        refine ⟨line :: extra, ?_⟩
        simp only [splitBlocksAux, if_neg h1]
        rw [hx]
        simp

/-- Claim C8 (confirmed): the segmenter is a total Lean function by
construction, and an input ending inside an unterminated code fence
flushes the accumulated lines as a final code segment; on the concrete
input "BEGIN CODE (py)\nprint(1)" it returns exactly one code segment
with content "print(1)" and tag "py". -/
theorem segmenter_total_unterminated_flush :
    split_text_into_blocks "BEGIN CODE (py)\nprint(1)" = [⟨"code", "print(1)", "py"⟩]
    ∧ ∀ (buf codeBuf : List String) (codeLang : String),
        splitBlocksAux [] buf true codeLang codeBuf = [⟨"code", joinNL codeBuf, codeLang⟩] :=
  ⟨by decide, fun _ _ _ => rfl⟩

/-- Counterexample to claim C7: the line "BEGIN CODE hello" does not
exactly match BEGIN CODE optionally followed by a parenthesized language
tag, yet the code consumes it as a code-run opener (it appears in no
segment content) instead of keeping it as ordinary content. -/
theorem begin_marker_not_exact_match :
    specOpensCodeRun "BEGIN CODE hello" = false
    ∧ split_text_into_blocks "BEGIN CODE hello\nx" = [⟨"code", "x", "text"⟩] := by
  exact ⟨by decide, by decide⟩

/-- Claim C7 (amended): in prose mode, a line opens a code run if and only
if its trimmed form merely STARTS WITH "BEGIN CODE" (the code uses
startswith, not an exact match); when it opens, the segment tag is
`parseLang` of the trimmed line (text between the first "(" and the
following ")", defaulting to "text"); otherwise the line is kept as the
first content line of the following prose segment. -/
theorem begin_marker_startswith_amended (line : String) (rest : List String) :
    (isBeginMarker line = true →
      ∃ c, (splitBlocksAux (line :: rest) [] false "text" []).head? =
        some ⟨"code", c, parseLang (pyStrip line)⟩)
    ∧ (isBeginMarker line = false →
      ∃ extra, (splitBlocksAux (line :: rest) [] false "text" []).head? =
        some ⟨"text", joinNL (line :: extra), ""⟩) := by
  constructor
  · intro h1
    simp only [splitBlocksAux, if_pos h1, flushText, List.isEmpty_nil, if_pos rfl,
      List.nil_append]
    exact splitBlocksAux_code_head rest [] [] (parseLang (pyStrip line))
  · intro h1
    have h1n : ¬ isBeginMarker line = true := by simp [h1]
    obtain ⟨extra, hx⟩ := splitBlocksAux_text_head rest ([] ++ [line]) "text" [] (by simp)
    refine ⟨extra, ?_⟩
    simp only [splitBlocksAux, if_neg h1n]
    simpa using hx

/-- Witness for the amended C7 theorem at concrete inputs: an opener line
with a parenthesized tag, and a non-opener line kept as prose content. -/
theorem begin_marker_startswith_amended_check :
    isBeginMarker "BEGIN CODE (go)" = true
    ∧ (∃ c, (splitBlocksAux ("BEGIN CODE (go)" :: ["x", "END CODE"]) [] false "text" []).head? =
        some ⟨"code", c, parseLang (pyStrip "BEGIN CODE (go)")⟩)
    ∧ isBeginMarker "hello" = false
    ∧ (∃ extra, (splitBlocksAux ("hello" :: ["x"]) [] false "text" []).head? =
        some ⟨"text", joinNL ("hello" :: extra), ""⟩) :=
  ⟨by decide, (begin_marker_startswith_amended "BEGIN CODE (go)" ["x", "END CODE"]).1 (by decide),
    by decide, (begin_marker_startswith_amended "hello" ["x"]).2 (by decide)⟩

/-- Counterexample to claim C4: on "a\nBEGIN CODE\nEND CODE\nb" the code
emits an empty code segment for the empty code region, so rejoining the
segment contents with line breaks yields "a\n\nb", while the original
text minus the two marker lines is "a\nb". -/
theorem segmenter_roundtrip_fails_on_empty_code :
    split_text_into_blocks "a\nBEGIN CODE\nEND CODE\nb" =
        [⟨"text", "a", ""⟩, ⟨"code", "", "text"⟩, ⟨"text", "b", ""⟩]
    ∧ keptLines (pyLines "a\nBEGIN CODE\nEND CODE\nb") false = ["a", "b"]
    ∧ joinNL ((split_text_into_blocks "a\nBEGIN CODE\nEND CODE\nb").map Block.content)
        = "a\n\nb"
    ∧ joinNL (keptLines (pyLines "a\nBEGIN CODE\nEND CODE\nb") false) = "a\nb"
    ∧ ("a\n\nb" : String) ≠ "a\nb" := by
  refine ⟨by decide, by decide, by decide, by decide, by decide⟩

/-- Claim C4 (amended): concatenating the contents of all segments with
the original line breaks reinserted reproduces the original text with the
consumed marker lines removed, provided every code segment has non-empty
content (an empty code region contributes an empty segment whose rejoin
inserts one spurious empty line, as the counterexample shows). -/
theorem segmenter_roundtrip_amended (s : String)
    (h : ∀ b ∈ split_text_into_blocks s, b.kind = "code" → b.content ≠ "") :
    joinNL ((split_text_into_blocks s).map Block.content)
      = joinNL (keptLines (pyLines s) false) := by
  have hpieces := splitBlocksAux_eq_pieces (pyLines s) [] false "text" []
  unfold split_text_into_blocks at h ⊢
  rw [hpieces] at h ⊢
  rw [List.map_map]
  rw [show (Block.content ∘ fun p : String × List String × String =>
        (⟨p.1, joinNL p.2.1, p.2.2⟩ : Block)) = fun p => joinNL p.2.1 from rfl]
  rw [show (fun p : String × List String × String => joinNL p.2.1)
        = joinNL ∘ (fun p => p.2.1) from rfl, ← List.map_map]
  rw [joinNL_map_flatten]
  · rw [(blockPieces_flatten (pyLines s)).1 [] "text" []]
    rw [List.nil_append]
  · intro p hp
    rcases List.mem_map.mp hp with ⟨piece, hpiece, rfl⟩
    rcases blockPieces_piece_sound (pyLines s) [] false "text" [] piece hpiece with
      ⟨_, hne⟩ | hcode
    · exact hne
    · have hb : (⟨piece.1, joinNL piece.2.1, piece.2.2⟩ : Block) ∈
          (blockPieces (pyLines s) [] false "text" []).map
            (fun p => (⟨p.1, joinNL p.2.1, p.2.2⟩ : Block)) :=
        List.mem_map_of_mem _ hpiece
      have hcontent := h _ hb hcode
      intro hnil
      exact hcontent (by rw [hnil]; rfl)

/-- Witness for the amended C4 theorem at the spec's own round-trip
example input. -/
theorem segmenter_roundtrip_amended_check :
    (∀ b ∈ split_text_into_blocks "Hello\nBEGIN CODE (go)\nfunc main(){}\nEND CODE\nBye",
        b.kind = "code" → b.content ≠ "")
    ∧ joinNL ((split_text_into_blocks
          "Hello\nBEGIN CODE (go)\nfunc main(){}\nEND CODE\nBye").map Block.content)
        = joinNL (keptLines
            (pyLines "Hello\nBEGIN CODE (go)\nfunc main(){}\nEND CODE\nBye") false) :=
  ⟨by decide, segmenter_roundtrip_amended _ (by decide)⟩

/-- Claim C1 (confirmed): a request to a budgeted tool (web_search or
fetch_url) with well-formed arguments, dispatched while the tool's count
is below its budget limit, increments exactly that tool's invocation
counter by exactly 1 — for every starting state, hence both when the
result comes from the cache and when it comes from a fresh external
call. -/
theorem budget_counter_increments_once
    (env : Env) (srcLimit : Int) (budgets : String → Option Int) (s : ToolState)
    (limit : Int) (rid q u : String) (n m : Int) :
    (budgets "web_search" = some limit → (s.counts "web_search" : Int) < limit →
      ((run_tool_call env srcLimit budgets ⟨rid, "web_search", .search q n⟩ s).2.counts
            "web_search"
          = s.counts "web_search" + 1
        ∧ ∀ t, t ≠ "web_search" →
            (run_tool_call env srcLimit budgets ⟨rid, "web_search", .search q n⟩ s).2.counts t
              = s.counts t))
    ∧ (budgets "fetch_url" = some limit → (s.counts "fetch_url" : Int) < limit →
      ((run_tool_call env srcLimit budgets ⟨rid, "fetch_url", .fetch u m⟩ s).2.counts
            "fetch_url"
          = s.counts "fetch_url" + 1
        ∧ ∀ t, t ≠ "fetch_url" →
            (run_tool_call env srcLimit budgets ⟨rid, "fetch_url", .fetch u m⟩ s).2.counts t
              = s.counts t)) := by
  constructor
  · intro hb hlt
    have hnot : ¬ ((s.counts "web_search" : Int) ≥ limit) := not_le.mpr hlt
    constructor
    · simp [run_tool_call, hb, hnot, run_tool_dispatch, bumpCount]
    · intro t ht
      simp [run_tool_call, hb, hnot, run_tool_dispatch, bumpCount, ht]
  · intro hb hlt
    have hnot : ¬ ((s.counts "fetch_url" : Int) ≥ limit) := not_le.mpr hlt
    constructor
    · simp [run_tool_call, hb, hnot, run_tool_dispatch, bumpCount]
    · intro t ht
      simp [run_tool_call, hb, hnot, run_tool_dispatch, bumpCount, ht]

/-- Witness for C1 at concrete inputs: a fresh state (cache miss) and a
state whose cache already holds the key (cache hit) both gain exactly one
web_search count. -/
theorem budget_counter_increments_once_check :
    mainBudgets 2 3 "web_search" = some 2
    ∧ ((initToolState.counts "web_search" : Int) < 2)
    ∧ (run_tool_call witnessEnv 6 (mainBudgets 2 3) ⟨"c1", "web_search", .search "q6" 5⟩
        initToolState).2.counts "web_search" = initToolState.counts "web_search" + 1 :=
  ⟨rfl, by decide,
    ((budget_counter_increments_once witnessEnv 6 (mainBudgets 2 3) initToolState 2
      "c1" "q6" "u" 5 0).1 rfl (by decide)).1⟩

/-- Claim C6 (confirmed): a dispatch for a budgeted tool whose count has
reached its limit returns the refusal tool turn (call id, role tool, tool
name, the budget-exceeded message) and leaves the whole tool state — the
counters, both caches, the sources, and the log of performed external
operations — completely unchanged. -/
theorem budget_refusal_no_mutation
    (env : Env) (srcLimit : Int) (budgets : String → Option Int)
    (req : ToolReq) (s : ToolState) (limit : Int)
    (hb : budgets req.name = some limit)
    (hge : (s.counts req.name : Int) ≥ limit) :
    run_tool_call env srcLimit budgets req s =
      (⟨req.id, "tool", req.name,
        "Budget exceeded for " ++ req.name ++ " (limit " ++ toString limit
          ++ "). Provide the best answer with existing info."⟩, s) := by
  simp [run_tool_call, hb, hge, mkToolTurn]

/-- Witness for C6: with the default budgets and the web_search count at
its limit 2, the dispatch returns the refusal turn and the identical
state. -/
theorem budget_refusal_no_mutation_check :
    mainBudgets 2 3 "web_search" = some 2
    ∧ ((exhaustedState.counts "web_search" : Int) ≥ 2)
    ∧ run_tool_call witnessEnv 6 (mainBudgets 2 3) ⟨"c7", "web_search", .search "q6" 5⟩
        exhaustedState
      = (⟨"c7", "tool", "web_search",
          "Budget exceeded for web_search (limit 2). Provide the best answer with existing info."⟩,
        exhaustedState) :=
  ⟨rfl, by decide,
    budget_refusal_no_mutation witnessEnv 6 (mainBudgets 2 3)
      ⟨"c7", "web_search", .search "q6" 5⟩ exhaustedState 2 rfl (by decide)⟩

/-- Claim C10 (confirmed): with the budgets main passes (only web_search
and fetch_url budgeted), a request whose tool name is none of the three
registered tools yields a tool turn carrying the request's call id, the
unknown name, and the unknown-tool error string, with the entire tool
state unchanged (no counter incremented, no cache or source touched); the
embedding is a total function, so no exception is raised. -/
theorem unknown_tool_error_turn
    (env : Env) (srcLimit webLimit fetchLimit : Int) (req : ToolReq) (s : ToolState)
    (h1 : req.name ≠ "create_file") (h2 : req.name ≠ "web_search")
    (h3 : req.name ≠ "fetch_url") :
    run_tool_call env srcLimit (mainBudgets webLimit fetchLimit) req s =
      (⟨req.id, "tool", req.name, "Error: unknown tool '" ++ req.name ++ "'."⟩, s) := by
  have hb : mainBudgets webLimit fetchLimit req.name = none := by
    simp [mainBudgets, h2, h3]
  simp [run_tool_call, hb, run_tool_dispatch, h1, h2, h3, mkToolTurn]

/-- Witness for C10 at a concrete unregistered tool name. -/
theorem unknown_tool_error_turn_check :
    run_tool_call witnessEnv 6 (mainBudgets 2 3) ⟨"c10", "frobnicate", .mismatched⟩
        initToolState
      = (⟨"c10", "tool", "frobnicate", "Error: unknown tool 'frobnicate'."⟩,
        initToolState) :=
  unknown_tool_error_turn witnessEnv 6 2 3 ⟨"c10", "frobnicate", .mismatched⟩
    initToolState (by decide) (by decide) (by decide)

theorem run_tool_call_passes (env : Env) (srcLimit : Int) (budgets : String → Option Int)
    (req : ToolReq) (s : ToolState)
    (hb : ∀ L, budgets req.name = some L → (s.counts req.name : Int) < L) :
    run_tool_call env srcLimit budgets req s = run_tool_dispatch env srcLimit req s := by
  unfold run_tool_call
  cases h : budgets req.name with
  | none => rfl
  | some L => simp [not_le.mpr (hb L h)]

theorem dispatch_search_eq (env : Env) (srcLimit : Int) (rid q : String) (n : Int)
    (s : ToolState) :
    run_tool_dispatch env srcLimit ⟨rid, "web_search", .search q n⟩ s =
      (mkToolTurn ⟨rid, "web_search", .search q n⟩ (web_search env q n s.searchCache s.log).1,
        { s with counts := bumpCount s.counts "web_search",
                 searchCache := (web_search env q n s.searchCache s.log).2.1,
                 log := (web_search env q n s.searchCache s.log).2.2,
                 sources := (addSearchUrls srcLimit (env.searchResults q n) s.sources s.seen).1,
                 seen := (addSearchUrls srcLimit (env.searchResults q n) s.sources s.seen).2 }) := by
  simp [run_tool_dispatch]

theorem dispatch_fetch_eq (env : Env) (srcLimit : Int) (rid u : String) (m : Int)
    (s : ToolState) :
    run_tool_dispatch env srcLimit ⟨rid, "fetch_url", .fetch u m⟩ s =
      (mkToolTurn ⟨rid, "fetch_url", .fetch u m⟩ (fetch_url env u m s.fetchCache s.log).1,
        { s with counts := bumpCount s.counts "fetch_url",
                 fetchCache := (fetch_url env u m s.fetchCache s.log).2.1,
                 log := (fetch_url env u m s.fetchCache s.log).2.2,
                 sources := (add_source u s.sources s.seen).1,
                 seen := (add_source u s.sources s.seen).2 }) := by
  simp [run_tool_dispatch]

theorem dispatch_create_eq (env : Env) (srcLimit : Int) (rid f c : String)
    (s : ToolState) :
    run_tool_dispatch env srcLimit ⟨rid, "create_file", .create f c⟩ s =
      (mkToolTurn ⟨rid, "create_file", .create f c⟩ (env.createResult f c),
        { s with counts := bumpCount s.counts "create_file",
                 log := s.log ++ [.createOp f c] }) := by
  simp [run_tool_dispatch, create_file]

theorem web_search_idem (env : Env) (q : String) (n : Int)
    (cache : List ((String × Int) × String)) (log : List ExtOp) :
    (web_search env q n (web_search env q n cache log).2.1 (web_search env q n cache log).2.2)
        = ((web_search env q n cache log).1,
            (web_search env q n cache log).2.1, (web_search env q n cache log).2.2)
    ∧ ∃ newOps, (web_search env q n cache log).2.2 = log ++ newOps ∧ newOps.length ≤ 1 := by
  cases h : alookup (q, n) cache with
  | some v =>
      refine ⟨?_, [], ?_, by simp⟩
      · simp [web_search, h]
      · simp [web_search, h]
  | none =>
      refine ⟨?_, [.searchOp q n], ?_, by simp⟩
      · simp [web_search, h, alookup]
      · simp [web_search, h]

theorem fetch_url_idem (env : Env) (u : String) (m : Int)
    (cache : List ((String × Int) × String)) (log : List ExtOp) :
    (fetch_url env u m (fetch_url env u m cache log).2.1 (fetch_url env u m cache log).2.2)
        = ((fetch_url env u m cache log).1,
            (fetch_url env u m cache log).2.1, (fetch_url env u m cache log).2.2)
    ∧ ∃ newOps, (fetch_url env u m cache log).2.2 = log ++ newOps ∧ newOps.length ≤ 1 := by
  cases h : alookup (u, m) cache with
  | some v =>
      refine ⟨?_, [], ?_, by simp⟩
      · simp [fetch_url, h]
      · simp [fetch_url, h]
  | none =>
      cases hn : env.fetchNet u with
      | ok raw =>
          refine ⟨?_, [.fetchOp u m], ?_, by simp⟩
          · simp [fetch_url, h, hn, alookup]
          · simp [fetch_url, h, hn]
      | error e =>
          refine ⟨?_, [.fetchOp u m], ?_, by simp⟩
          · simp [fetch_url, h, hn, alookup]
          · simp [fetch_url, h, hn]

/-- Counterexample to claim C5: create_file has no cache, so two
invocations with identical tool name and argument set perform the
underlying file-write operation TWICE (the log gains two create
operations), contradicting "performed at most once across both". -/
theorem create_file_not_cached_example :
    ((run_tool_call witnessEnv 6 (mainBudgets 2 3) ⟨"c2", "create_file", .create "f.txt" "hi"⟩
        (run_tool_call witnessEnv 6 (mainBudgets 2 3) ⟨"c1", "create_file", .create "f.txt" "hi"⟩
          initToolState).2).2.log
      = [.createOp "f.txt" "hi", .createOp "f.txt" "hi"])
    ∧ ¬ ((run_tool_call witnessEnv 6 (mainBudgets 2 3) ⟨"c2", "create_file", .create "f.txt" "hi"⟩
        (run_tool_call witnessEnv 6 (mainBudgets 2 3) ⟨"c1", "create_file", .create "f.txt" "hi"⟩
          initToolState).2).2.log.length ≤ 1) := by
  exact ⟨by decide, by decide⟩

/-- Claim C5 (amended): for the cached tools web_search and fetch_url, two
invocations with identical tool name and argument set return byte-identical
result strings and perform the underlying external operation at most once
across both (given both dispatches pass the budget check); create_file is
NOT cached: each invocation performs the write attempt again, so two
identical create_file calls perform it exactly twice (their result strings
still coincide, the outcome oracle being deterministic). -/
theorem cache_idempotence_amended
    (env : Env) (srcLimit : Int) (budgets : String → Option Int) (s : ToolState)
    (id1 id2 q u f c : String) (n m : Int) :
    ((∀ L, budgets "web_search" = some L → (s.counts "web_search" : Int) + 2 ≤ L) →
      ((run_tool_call env srcLimit budgets ⟨id1, "web_search", .search q n⟩ s).1.content
        = (run_tool_call env srcLimit budgets ⟨id2, "web_search", .search q n⟩
            (run_tool_call env srcLimit budgets ⟨id1, "web_search", .search q n⟩ s).2).1.content)
      ∧ ∃ newOps,
          (run_tool_call env srcLimit budgets ⟨id2, "web_search", .search q n⟩
            (run_tool_call env srcLimit budgets ⟨id1, "web_search", .search q n⟩ s).2).2.log
            = s.log ++ newOps ∧ newOps.length ≤ 1)
    ∧ ((∀ L, budgets "fetch_url" = some L → (s.counts "fetch_url" : Int) + 2 ≤ L) →
      ((run_tool_call env srcLimit budgets ⟨id1, "fetch_url", .fetch u m⟩ s).1.content
        = (run_tool_call env srcLimit budgets ⟨id2, "fetch_url", .fetch u m⟩
            (run_tool_call env srcLimit budgets ⟨id1, "fetch_url", .fetch u m⟩ s).2).1.content)
      ∧ ∃ newOps,
          (run_tool_call env srcLimit budgets ⟨id2, "fetch_url", .fetch u m⟩
            (run_tool_call env srcLimit budgets ⟨id1, "fetch_url", .fetch u m⟩ s).2).2.log
            = s.log ++ newOps ∧ newOps.length ≤ 1)
    ∧ (budgets "create_file" = none →
      ((run_tool_call env srcLimit budgets ⟨id1, "create_file", .create f c⟩ s).1.content
        = (run_tool_call env srcLimit budgets ⟨id2, "create_file", .create f c⟩
            (run_tool_call env srcLimit budgets ⟨id1, "create_file", .create f c⟩ s).2).1.content)
      ∧ (run_tool_call env srcLimit budgets ⟨id2, "create_file", .create f c⟩
            (run_tool_call env srcLimit budgets ⟨id1, "create_file", .create f c⟩ s).2).2.log
          = s.log ++ [.createOp f c, .createOp f c]) := by
  refine ⟨fun hbud => ?_, fun hbud => ?_, fun hbud => ?_⟩
  · have hb1 : ∀ L, budgets "web_search" = some L → (s.counts "web_search" : Int) < L := by
      intro L hL
      have := hbud L hL
      omega
    rw [run_tool_call_passes env srcLimit budgets ⟨id1, "web_search", .search q n⟩ s hb1,
      dispatch_search_eq]
    set s1 : ToolState :=
      { s with counts := bumpCount s.counts "web_search",
               searchCache := (web_search env q n s.searchCache s.log).2.1,
               log := (web_search env q n s.searchCache s.log).2.2,
               sources := (addSearchUrls srcLimit (env.searchResults q n) s.sources s.seen).1,
               seen := (addSearchUrls srcLimit (env.searchResults q n) s.sources s.seen).2 }
      with hs1
    have hb2 : ∀ L, budgets "web_search" = some L → (s1.counts "web_search" : Int) < L := by
      intro L hL
      have h2 := hbud L hL
      have : s1.counts "web_search" = s.counts "web_search" + 1 := by
        rw [hs1]; simp [bumpCount]
      rw [this]
      omega
    rw [run_tool_call_passes env srcLimit budgets ⟨id2, "web_search", .search q n⟩ s1 hb2,
      dispatch_search_eq]
    have hcache : s1.searchCache = (web_search env q n s.searchCache s.log).2.1 := rfl
    have hlog : s1.log = (web_search env q n s.searchCache s.log).2.2 := rfl
    obtain ⟨hidem, newOps, hnew, hlen⟩ := web_search_idem env q n s.searchCache s.log
    constructor
    · simp only [mkToolTurn, hcache, hlog, hidem]
    · refine ⟨newOps, ?_, hlen⟩
      simp only [hcache, hlog, hidem]
      exact hnew
  · have hb1 : ∀ L, budgets "fetch_url" = some L → (s.counts "fetch_url" : Int) < L := by
      intro L hL
      have := hbud L hL
      omega
    rw [run_tool_call_passes env srcLimit budgets ⟨id1, "fetch_url", .fetch u m⟩ s hb1,
      dispatch_fetch_eq]
    set s1 : ToolState :=
      { s with counts := bumpCount s.counts "fetch_url",
               fetchCache := (fetch_url env u m s.fetchCache s.log).2.1,
               log := (fetch_url env u m s.fetchCache s.log).2.2,
               sources := (add_source u s.sources s.seen).1,
               seen := (add_source u s.sources s.seen).2 }
      with hs1
    have hb2 : ∀ L, budgets "fetch_url" = some L → (s1.counts "fetch_url" : Int) < L := by
      intro L hL
      have h2 := hbud L hL
      have : s1.counts "fetch_url" = s.counts "fetch_url" + 1 := by
        rw [hs1]; simp [bumpCount]
      rw [this]
      omega
    rw [run_tool_call_passes env srcLimit budgets ⟨id2, "fetch_url", .fetch u m⟩ s1 hb2,
      dispatch_fetch_eq]
    have hcache : s1.fetchCache = (fetch_url env u m s.fetchCache s.log).2.1 := rfl
    have hlog : s1.log = (fetch_url env u m s.fetchCache s.log).2.2 := rfl
    obtain ⟨hidem, newOps, hnew, hlen⟩ := fetch_url_idem env u m s.fetchCache s.log
    constructor
    · simp only [mkToolTurn, hcache, hlog, hidem]
    · refine ⟨newOps, ?_, hlen⟩
      simp only [hcache, hlog, hidem]
      exact hnew
  · have hb1 : ∀ L, budgets "create_file" = some L → (s.counts "create_file" : Int) < L := by
      intro L hL
      rw [hbud] at hL
      cases hL
    rw [run_tool_call_passes env srcLimit budgets ⟨id1, "create_file", .create f c⟩ s hb1,
      dispatch_create_eq]
    set s1 : ToolState :=
      { s with counts := bumpCount s.counts "create_file",
               log := s.log ++ [.createOp f c] }
      with hs1
    have hb2 : ∀ L, budgets "create_file" = some L → (s1.counts "create_file" : Int) < L := by
      intro L hL
      rw [hbud] at hL
      cases hL
    rw [run_tool_call_passes env srcLimit budgets ⟨id2, "create_file", .create f c⟩ s1 hb2,
      dispatch_create_eq]
    refine ⟨by simp [mkToolTurn], ?_⟩
    show s1.log ++ [.createOp f c] = s.log ++ [.createOp f c, .createOp f c]
    rw [hs1]
    simp

/-- Witness for the amended C5 theorem at concrete inputs: identical
repeated web_search, fetch_url and create_file calls from the initial
state under the default budgets. -/
theorem cache_idempotence_amended_check :
    (((run_tool_call witnessEnv 6 (mainBudgets 2 3) ⟨"a1", "web_search", .search "q6" 5⟩
          initToolState).1.content
        = (run_tool_call witnessEnv 6 (mainBudgets 2 3) ⟨"a2", "web_search", .search "q6" 5⟩
            (run_tool_call witnessEnv 6 (mainBudgets 2 3) ⟨"a1", "web_search", .search "q6" 5⟩
              initToolState).2).1.content)
      ∧ ∃ newOps,
          (run_tool_call witnessEnv 6 (mainBudgets 2 3) ⟨"a2", "web_search", .search "q6" 5⟩
            (run_tool_call witnessEnv 6 (mainBudgets 2 3) ⟨"a1", "web_search", .search "q6" 5⟩
              initToolState).2).2.log
            = initToolState.log ++ newOps ∧ newOps.length ≤ 1)
    ∧ ((run_tool_call witnessEnv 6 (mainBudgets 2 3) ⟨"d1", "fetch_url", .fetch "https://x.example/" 4000⟩
          initToolState).1.content
        = (run_tool_call witnessEnv 6 (mainBudgets 2 3) ⟨"d2", "fetch_url", .fetch "https://x.example/" 4000⟩
            (run_tool_call witnessEnv 6 (mainBudgets 2 3) ⟨"d1", "fetch_url", .fetch "https://x.example/" 4000⟩
              initToolState).2).1.content)
    ∧ ((run_tool_call witnessEnv 6 (mainBudgets 2 3) ⟨"b1", "create_file", .create "f" "x"⟩
          initToolState).1.content
        = (run_tool_call witnessEnv 6 (mainBudgets 2 3) ⟨"b2", "create_file", .create "f" "x"⟩
            (run_tool_call witnessEnv 6 (mainBudgets 2 3) ⟨"b1", "create_file", .create "f" "x"⟩
              initToolState).2).1.content)
      ∧ (run_tool_call witnessEnv 6 (mainBudgets 2 3) ⟨"b2", "create_file", .create "f" "x"⟩
            (run_tool_call witnessEnv 6 (mainBudgets 2 3) ⟨"b1", "create_file", .create "f" "x"⟩
              initToolState).2).2.log
          = initToolState.log ++ [.createOp "f" "x", .createOp "f" "x"] :=
  ⟨(cache_idempotence_amended witnessEnv 6 (mainBudgets 2 3) initToolState
      "a1" "a2" "q6" "u" "f" "x" 5 4000).1 (by intro L hL; cases hL; decide),
    ((cache_idempotence_amended witnessEnv 6 (mainBudgets 2 3) initToolState
      "d1" "d2" "q6" "https://x.example/" "f" "x" 5 4000).2.1
        (by intro L hL; cases hL; decide)).1,
    ((cache_idempotence_amended witnessEnv 6 (mainBudgets 2 3) initToolState
      "b1" "b2" "q6" "u" "f" "x" 5 4000).2.2 rfl).1,
    ((cache_idempotence_amended witnessEnv 6 (mainBudgets 2 3) initToolState
      "b1" "b2" "q6" "u" "f" "x" 5 4000).2.2 rfl).2⟩

theorem fetch_url_cache_mono (env : Env) (u : String) (m : Int)
    (cache : List ((String × Int) × String)) (log : List ExtOp)
    (k : String × Int) (v : String) (h : alookup k cache = some v) :
    alookup k (fetch_url env u m cache log).2.1 = some v := by
  cases hl : alookup (u, m) cache with
  | some w => simp [fetch_url, hl, h]
  | none =>
      have hne : (u, m) ≠ k := by
        rintro rfl
        rw [h] at hl
        cases hl
      cases hn : env.fetchNet u with
      | ok raw => simp [fetch_url, hl, hn, alookup, hne, h]
      | error e => simp [fetch_url, hl, hn, alookup, hne, h]

theorem run_tool_dispatch_fetchCache_mono (env : Env) (srcLimit : Int)
    (req : ToolReq) (s : ToolState) (k : String × Int) (v : String)
    (h : alookup k s.fetchCache = some v) :
    alookup k (run_tool_dispatch env srcLimit req s).2.fetchCache = some v := by
  by_cases h1 : req.name = "create_file"
  · cases hargs : req.args <;> simp [run_tool_dispatch, h1, hargs, h]
  · by_cases h2 : req.name = "web_search"
    · cases hargs : req.args <;> simp [run_tool_dispatch, h1, h2, hargs, h]
    · by_cases h3 : req.name = "fetch_url"
      · cases hargs : req.args with
        | search q n => simp [run_tool_dispatch, h1, h2, h3, hargs, h]
        | fetch u2 m2 =>
            have := fetch_url_cache_mono env u2 m2 s.fetchCache s.log k v h
            simpa [run_tool_dispatch, h1, h2, h3, hargs] using this
        | create f c => simp [run_tool_dispatch, h1, h2, h3, hargs, h]
        | mismatched => simp [run_tool_dispatch, h1, h2, h3, hargs, h]
      · simp [run_tool_dispatch, h1, h2, h3, h]

theorem run_tool_call_fetchCache_mono (env : Env) (srcLimit : Int)
    (budgets : String → Option Int) (req : ToolReq) (s : ToolState)
    (k : String × Int) (v : String) (h : alookup k s.fetchCache = some v) :
    alookup k (run_tool_call env srcLimit budgets req s).2.fetchCache = some v := by
  unfold run_tool_call
  cases hb : budgets req.name with
  | none => exact run_tool_dispatch_fetchCache_mono env srcLimit req s k v h
  | some L =>
      by_cases hge : (s.counts req.name : Int) ≥ L
      · simp [hge, h]
      · simp only [if_neg hge]
        exact run_tool_dispatch_fetchCache_mono env srcLimit req s k v h

theorem applySession_fetchCache_mono (env : Env) (srcLimit : Int)
    (budgets : String → Option Int) :
    ∀ (steps : List SessionStep) (s : ToolState) (k : String × Int) (v : String),
      alookup k s.fetchCache = some v →
      alookup k (applySession env srcLimit budgets steps s).fetchCache = some v := by
  intro steps
  induction steps with
  | nil => intro s k v h; exact h
  | cons st rest ih =>
      intro s k v h
      cases st with
      | call r =>
          exact ih _ k v (run_tool_call_fetchCache_mono env srcLimit budgets r s k v h)
      | newTurn => exact ih _ k v h

/-- Claim C9 (confirmed): when fetch_url's network attempt fails, the
error JSON payload is stored in _FETCH_CACHE under the (url, max_chars)
key; fetch-cache entries survive every later tool dispatch and every
user-turn reset of the process, and any later fetch_url dispatch with the
same arguments that passes its budget check returns the identical error
string and performs no new external operation (the log is unchanged). -/
theorem fetch_error_cached
    (env : Env) (srcLimit : Int) (budgets : String → Option Int)
    (s : ToolState) (id1 u e : String) (mc : Int)
    (hmiss : alookup (u, mc) s.fetchCache = none)
    (herr : env.fetchNet u = .error e)
    (hbud : ∀ L, budgets "fetch_url" = some L → (s.counts "fetch_url" : Int) < L) :
    (run_tool_call env srcLimit budgets ⟨id1, "fetch_url", .fetch u mc⟩ s).1.content
        = fetchErrJson u e
    ∧ (∀ steps : List SessionStep,
        alookup (u, mc)
          (applySession env srcLimit budgets steps
            (run_tool_call env srcLimit budgets ⟨id1, "fetch_url", .fetch u mc⟩ s).2).fetchCache
          = some (fetchErrJson u e))
    ∧ (∀ (s2 : ToolState) (id2 : String),
        alookup (u, mc) s2.fetchCache = some (fetchErrJson u e) →
        (∀ L, budgets "fetch_url" = some L → (s2.counts "fetch_url" : Int) < L) →
        (run_tool_call env srcLimit budgets ⟨id2, "fetch_url", .fetch u mc⟩ s2).1.content
            = fetchErrJson u e
          ∧ (run_tool_call env srcLimit budgets ⟨id2, "fetch_url", .fetch u mc⟩ s2).2.log
            = s2.log) := by
  have hstep := run_tool_call_passes env srcLimit budgets ⟨id1, "fetch_url", .fetch u mc⟩ s hbud
  refine ⟨?_, ?_, ?_⟩
  · rw [hstep, dispatch_fetch_eq]
    simp [mkToolTurn, fetch_url, hmiss, herr]
  · intro steps
    apply applySession_fetchCache_mono
    rw [hstep, dispatch_fetch_eq]
    simp [fetch_url, hmiss, herr, alookup]
  · intro s2 id2 hhit hbud2
    rw [run_tool_call_passes env srcLimit budgets ⟨id2, "fetch_url", .fetch u mc⟩ s2 hbud2,
      dispatch_fetch_eq]
    constructor
    · simp [mkToolTurn, fetch_url, hhit]
    · simp [fetch_url, hhit]

/-- Witness for C9: a failing fetch against the concrete environment
stores and returns the error payload, and the entry is still there after
a user-turn reset. -/
theorem fetch_error_cached_check :
    alookup ("https://err.example/", 4000) initToolState.fetchCache = none
    ∧ witnessEnv.fetchNet "https://err.example/" = .error "boom"
    ∧ (run_tool_call witnessEnv 6 (mainBudgets 2 3)
        ⟨"e1", "fetch_url", .fetch "https://err.example/" 4000⟩ initToolState).1.content
      = fetchErrJson "https://err.example/" "boom"
    ∧ alookup ("https://err.example/", 4000)
        (applySession witnessEnv 6 (mainBudgets 2 3) [.newTurn]
          (run_tool_call witnessEnv 6 (mainBudgets 2 3)
            ⟨"e1", "fetch_url", .fetch "https://err.example/" 4000⟩ initToolState).2).fetchCache
      = some (fetchErrJson "https://err.example/" "boom") :=
  ⟨rfl, rfl,
    (fetch_error_cached witnessEnv 6 (mainBudgets 2 3) initToolState "e1"
      "https://err.example/" "boom" 4000 rfl rfl (by intro L hL; cases hL; decide)).1,
    (fetch_error_cached witnessEnv 6 (mainBudgets 2 3) initToolState "e1"
      "https://err.example/" "boom" 4000 rfl rfl (by intro L hL; cases hL; decide)).2.1
      [.newTurn]⟩

theorem add_source_spec (u : String) (lst seen : List String) :
    (add_source u lst seen = (lst, seen))
    ∨ (validUrl u = true ∧ u ∉ seen
        ∧ add_source u lst seen = (lst ++ [u], seen ++ [u])) := by
  by_cases hempty : u = ""
  · exact Or.inl (by simp [add_source, hempty])
  · by_cases hscheme : (pyStartsWith u "http://" || pyStartsWith u "https://") = true
    · by_cases hseen : u ∈ seen
      · exact Or.inl (by simp [add_source, hempty, hscheme, hseen])
      · refine Or.inr ⟨?_, hseen, by simp [add_source, hempty, hscheme, hseen]⟩
        simp [validUrl, hempty, hscheme]
    · exact Or.inl (by simp [add_source, hempty, hscheme])

theorem add_source_inv (u : String) (lst seen : List String) (h : sourcesInv lst seen) :
    sourcesInv (add_source u lst seen).1 (add_source u lst seen).2 := by
  rcases add_source_spec u lst seen with heq | ⟨hval, hseen, heq⟩
  · rw [heq]; exact h
  · rw [heq]
    obtain ⟨hnd, hv, hiff⟩ := h
    have hul : u ∉ lst := fun hm => hseen ((hiff u).mpr hm)
    refine ⟨?_, ?_, ?_⟩
    · simp [List.nodup_append, hnd, hul]
    · intro x hx
      rcases List.mem_append.mp hx with hx | hx
      · exact hv x hx
      · simp at hx
        subst hx
        exact hval
    · intro x
      simp [hiff x]

theorem add_source_append (u : String) (lst seen : List String) :
    ∃ add, (add_source u lst seen).1 = lst ++ add ∧ add.length ≤ 1 := by
  rcases add_source_spec u lst seen with heq | ⟨_, _, heq⟩
  · exact ⟨[], by rw [heq]; simp, by simp⟩
  · exact ⟨[u], by rw [heq], by simp⟩

theorem addSearchUrls_inv (srcLimit : Int) :
    ∀ (urls lst seen : List String), sourcesInv lst seen →
      sourcesInv (addSearchUrls srcLimit urls lst seen).1
        (addSearchUrls srcLimit urls lst seen).2 := by
  intro urls
  induction urls with
  | nil => intro lst seen h; exact h
  | cons u rest ih =>
      intro lst seen h
      have h1 := add_source_inv u lst seen h
      by_cases hb : ((add_source u lst seen).1.length : Int) ≥ srcLimit
      · simpa only [addSearchUrls, if_pos hb] using h1
      · simp only [addSearchUrls, if_neg hb]
        exact ih _ _ h1

theorem addSearchUrls_append (srcLimit : Int) :
    ∀ (urls lst seen : List String),
      ∃ add, (addSearchUrls srcLimit urls lst seen).1 = lst ++ add := by
  intro urls
  induction urls with
  | nil => intro lst seen; exact ⟨[], by simp [addSearchUrls]⟩
  | cons u rest ih =>
      intro lst seen
      obtain ⟨a1, ha1, hl1⟩ := add_source_append u lst seen
      by_cases hb : ((add_source u lst seen).1.length : Int) ≥ srcLimit
      · exact ⟨a1, by simp only [addSearchUrls, if_pos hb]; exact ha1⟩
      · obtain ⟨a2, ha2⟩ := ih (add_source u lst seen).1 (add_source u lst seen).2
        refine ⟨a1 ++ a2, ?_⟩
        simp only [addSearchUrls, if_neg hb]
        rw [ha2, ha1, List.append_assoc]

theorem addSearchUrls_len (srcLimit : Int) :
    ∀ (urls lst seen : List String),
      (addSearchUrls srcLimit urls lst seen).1.length
        ≤ max (lst.length + 1) srcLimit.toNat := by
  intro urls
  induction urls with
  | nil =>
      intro lst seen
      simp only [addSearchUrls]
      exact le_trans (Nat.le_succ _) (le_max_left _ _)
  | cons u rest ih =>
      intro lst seen
      obtain ⟨a1, ha1, hl1⟩ := add_source_append u lst seen
      have hlen1 : (add_source u lst seen).1.length ≤ lst.length + 1 := by
        rw [ha1]
        simp only [List.length_append]
        omega
      by_cases hb : ((add_source u lst seen).1.length : Int) ≥ srcLimit
      · simp only [addSearchUrls, if_pos hb]
        exact le_trans hlen1 (le_max_left _ _)
      · simp only [addSearchUrls, if_neg hb]
        have h2 := ih (add_source u lst seen).1 (add_source u lst seen).2
        have hlt : (add_source u lst seen).1.length + 1 ≤ srcLimit.toNat := by
          push_neg at hb
          omega
        have h3 : max ((add_source u lst seen).1.length + 1) srcLimit.toNat
            = srcLimit.toNat := max_eq_right hlt
        rw [h3] at h2
        exact le_trans h2 (le_max_right _ _)

theorem run_tool_dispatch_sources_inv (env : Env) (srcLimit : Int)
    (req : ToolReq) (s : ToolState) (h : sourcesInv s.sources s.seen) :
    sourcesInv (run_tool_dispatch env srcLimit req s).2.sources
      (run_tool_dispatch env srcLimit req s).2.seen := by
  by_cases h1 : req.name = "create_file"
  · cases hargs : req.args <;> simpa [run_tool_dispatch, h1, hargs] using h
  · by_cases h2 : req.name = "web_search"
    · cases hargs : req.args with
      | search q n =>
          have := addSearchUrls_inv srcLimit (env.searchResults q n) s.sources s.seen h
          simpa [run_tool_dispatch, h1, h2, hargs] using this
      | fetch u2 m2 => simpa [run_tool_dispatch, h1, h2, hargs] using h
      | create f c => simpa [run_tool_dispatch, h1, h2, hargs] using h
      | mismatched => simpa [run_tool_dispatch, h1, h2, hargs] using h
    · by_cases h3 : req.name = "fetch_url"
      · cases hargs : req.args with
        | search q n => simpa [run_tool_dispatch, h1, h2, h3, hargs] using h
        | fetch u2 m2 =>
            have := add_source_inv u2 s.sources s.seen h
            simpa [run_tool_dispatch, h1, h2, h3, hargs] using this
        | create f c => simpa [run_tool_dispatch, h1, h2, h3, hargs] using h
        | mismatched => simpa [run_tool_dispatch, h1, h2, h3, hargs] using h
      · simpa [run_tool_dispatch, h1, h2, h3] using h

theorem run_tool_call_sources_inv (env : Env) (srcLimit : Int)
    (budgets : String → Option Int) (req : ToolReq) (s : ToolState)
    (h : sourcesInv s.sources s.seen) :
    sourcesInv (run_tool_call env srcLimit budgets req s).2.sources
      (run_tool_call env srcLimit budgets req s).2.seen := by
  unfold run_tool_call
  cases hb : budgets req.name with
  | none => exact run_tool_dispatch_sources_inv env srcLimit req s h
  | some L =>
      by_cases hge : (s.counts req.name : Int) ≥ L
      · simpa [hge] using h
      · simp only [if_neg hge]
        exact run_tool_dispatch_sources_inv env srcLimit req s h

theorem run_tool_dispatch_sources_append (env : Env) (srcLimit : Int)
    (req : ToolReq) (s : ToolState) :
    ∃ add, (run_tool_dispatch env srcLimit req s).2.sources = s.sources ++ add := by
  by_cases h1 : req.name = "create_file"
  · cases hargs : req.args <;> exact ⟨[], by simp [run_tool_dispatch, h1, hargs]⟩
  · by_cases h2 : req.name = "web_search"
    · cases hargs : req.args with
      | search q n =>
          obtain ⟨add, ha⟩ := addSearchUrls_append srcLimit (env.searchResults q n)
            s.sources s.seen
          exact ⟨add, by simpa [run_tool_dispatch, h1, h2, hargs] using ha⟩
      | fetch u2 m2 => exact ⟨[], by simp [run_tool_dispatch, h1, h2, hargs]⟩
      | create f c => exact ⟨[], by simp [run_tool_dispatch, h1, h2, hargs]⟩
      | mismatched => exact ⟨[], by simp [run_tool_dispatch, h1, h2, hargs]⟩
    · by_cases h3 : req.name = "fetch_url"
      · cases hargs : req.args with
        | search q n => exact ⟨[], by simp [run_tool_dispatch, h1, h2, h3, hargs]⟩
        | fetch u2 m2 =>
            obtain ⟨add, ha, hl⟩ := add_source_append u2 s.sources s.seen
            exact ⟨add, by simpa [run_tool_dispatch, h1, h2, h3, hargs] using ha⟩
        | create f c => exact ⟨[], by simp [run_tool_dispatch, h1, h2, h3, hargs]⟩
        | mismatched => exact ⟨[], by simp [run_tool_dispatch, h1, h2, h3, hargs]⟩
      · exact ⟨[], by simp [run_tool_dispatch, h1, h2, h3]⟩

theorem run_tool_call_sources_append (env : Env) (srcLimit : Int)
    (budgets : String → Option Int) (req : ToolReq) (s : ToolState) :
    ∃ add, (run_tool_call env srcLimit budgets req s).2.sources = s.sources ++ add := by
  unfold run_tool_call
  cases hb : budgets req.name with
  | none => exact run_tool_dispatch_sources_append env srcLimit req s
  | some L =>
      by_cases hge : (s.counts req.name : Int) ≥ L
      · exact ⟨[], by simp [hge]⟩
      · simp only [if_neg hge]
        exact run_tool_dispatch_sources_append env srcLimit req s

theorem run_tool_dispatch_sources_len (env : Env) (srcLimit : Int)
    (req : ToolReq) (s : ToolState) :
    (run_tool_dispatch env srcLimit req s).2.sources.length
      ≤ max (s.sources.length + 1) srcLimit.toNat := by
  have htriv : s.sources.length ≤ max (s.sources.length + 1) srcLimit.toNat :=
    le_trans (Nat.le_succ _) (le_max_left _ _)
  by_cases h1 : req.name = "create_file"
  · cases hargs : req.args <;> simpa [run_tool_dispatch, h1, hargs] using htriv
  · by_cases h2 : req.name = "web_search"
    · cases hargs : req.args with
      | search q n =>
          have := addSearchUrls_len srcLimit (env.searchResults q n) s.sources s.seen
          simpa [run_tool_dispatch, h1, h2, hargs] using this
      | fetch u2 m2 => simpa [run_tool_dispatch, h1, h2, hargs] using htriv
      | create f c => simpa [run_tool_dispatch, h1, h2, hargs] using htriv
      | mismatched => simpa [run_tool_dispatch, h1, h2, hargs] using htriv
    · by_cases h3 : req.name = "fetch_url"
      · cases hargs : req.args with
        | search q n => simpa [run_tool_dispatch, h1, h2, h3, hargs] using htriv
        | fetch u2 m2 =>
            obtain ⟨add, ha, hl⟩ := add_source_append u2 s.sources s.seen
            have : (add_source u2 s.sources s.seen).1.length ≤ s.sources.length + 1 := by
              rw [ha]
              simp only [List.length_append]
              omega
            have h4 : (add_source u2 s.sources s.seen).1.length
                ≤ max (s.sources.length + 1) srcLimit.toNat :=
              le_trans this (le_max_left _ _)
            simpa [run_tool_dispatch, h1, h2, h3, hargs] using h4
        | create f c => simpa [run_tool_dispatch, h1, h2, h3, hargs] using htriv
        | mismatched => simpa [run_tool_dispatch, h1, h2, h3, hargs] using htriv
      · simpa [run_tool_dispatch, h1, h2, h3] using htriv

theorem run_tool_call_sources_len (env : Env) (srcLimit : Int)
    (budgets : String → Option Int) (req : ToolReq) (s : ToolState) :
    (run_tool_call env srcLimit budgets req s).2.sources.length
      ≤ max (s.sources.length + 1) srcLimit.toNat := by
  unfold run_tool_call
  cases hb : budgets req.name with
  | none => exact run_tool_dispatch_sources_len env srcLimit req s
  | some L =>
      by_cases hge : (s.counts req.name : Int) ≥ L
      · simp only [if_pos hge]
        exact le_trans (Nat.le_succ _) (le_max_left _ _)
      · simp only [if_neg hge]
        exact run_tool_dispatch_sources_len env srcLimit req s

theorem run_tool_calls_sources_inv (env : Env) (srcLimit : Int)
    (budgets : String → Option Int) :
    ∀ (reqs : List ToolReq) (s : ToolState), sourcesInv s.sources s.seen →
      sourcesInv (run_tool_calls env srcLimit budgets reqs s).sources
        (run_tool_calls env srcLimit budgets reqs s).seen := by
  intro reqs
  induction reqs with
  | nil => intro s h; exact h
  | cons r rest ih =>
      intro s h
      exact ih _ (run_tool_call_sources_inv env srcLimit budgets r s h)

theorem run_tool_calls_sources_len (env : Env) (srcLimit : Int)
    (budgets : String → Option Int) :
    ∀ (reqs : List ToolReq) (s : ToolState),
      (run_tool_calls env srcLimit budgets reqs s).sources.length
        ≤ max s.sources.length srcLimit.toNat + reqs.length := by
  intro reqs
  induction reqs with
  | nil =>
      intro s
      simp only [run_tool_calls, List.length_nil, Nat.add_zero]
      exact le_max_left _ _
  | cons r rest ih =>
      intro s
      have hstep := run_tool_call_sources_len env srcLimit budgets r s
      have htail := ih (run_tool_call env srcLimit budgets r s).2
      have hmax : max (run_tool_call env srcLimit budgets r s).2.sources.length srcLimit.toNat
          ≤ max s.sources.length srcLimit.toNat + 1 := by
        have ha := le_max_left s.sources.length srcLimit.toNat
        have hb := le_max_right s.sources.length srcLimit.toNat
        have hc := le_max_left (s.sources.length + 1) srcLimit.toNat
        have hd := le_max_right (s.sources.length + 1) srcLimit.toNat
        omega
      simp only [run_tool_calls, List.length_cons]
      omega

/-- Counterexample to claim C3: a web_search dispatch that fills the
source list to the cap 6 followed by a fetch_url dispatch of a fresh url
leaves SEVEN urls in the SourceList — fetch_url never checks the cap, so
the length exceeds the configured limit. -/
theorem sources_cap_exceeded_example :
    (run_tool_calls witnessEnv 6 (mainBudgets 2 3)
        [⟨"s1", "web_search", .search "q6" 10⟩,
          ⟨"s2", "fetch_url", .fetch "https://b.example/7" 4000⟩]
        initToolState).sources
      = ["https://a.example/1", "https://a.example/2", "https://a.example/3",
          "https://a.example/4", "https://a.example/5", "https://a.example/6",
          "https://b.example/7"]
    ∧ ¬ ((run_tool_calls witnessEnv 6 (mainBudgets 2 3)
        [⟨"s1", "web_search", .search "q6" 10⟩,
          ⟨"s2", "fetch_url", .fetch "https://b.example/7" 4000⟩]
        initToolState).sources.length ≤ 6) :=
  ⟨by decide, by decide⟩

/-- Claim C3 (amended): after any sequence of tool dispatches in one user
turn the SourceList holds only distinct urls beginning with http:// or
https://, each dispatch only appends (first-seen order); but the length is
bounded by cap + number of dispatches rather than by the cap: a dispatch
that starts at or above the cap can still add one url, because web_search
checks the cap only after adding and fetch_url never checks it. -/
theorem sources_invariant_amended
    (env : Env) (srcLimit : Int) (budgets : String → Option Int)
    (reqs : List ToolReq) (s0 : ToolState)
    (hsrc : s0.sources = []) (hseen : s0.seen = []) :
    (run_tool_calls env srcLimit budgets reqs s0).sources.Nodup
    ∧ (∀ url ∈ (run_tool_calls env srcLimit budgets reqs s0).sources,
        url ≠ "" ∧ (pyStartsWith url "http://" || pyStartsWith url "https://") = true)
    ∧ (∀ (req : ToolReq) (s : ToolState), ∃ add,
        (run_tool_call env srcLimit budgets req s).2.sources = s.sources ++ add)
    ∧ (run_tool_calls env srcLimit budgets reqs s0).sources.length
        ≤ srcLimit.toNat + reqs.length := by
  have hinv0 : sourcesInv s0.sources s0.seen := by
    rw [hsrc, hseen]
    exact ⟨List.nodup_nil, by simp, by simp⟩
  have hinv := run_tool_calls_sources_inv env srcLimit budgets reqs s0 hinv0
  refine ⟨hinv.1, ?_, ?_, ?_⟩
  · intro url hu
    have hv := hinv.2.1 url hu
    unfold validUrl at hv
    by_cases he : url = ""
    · rw [if_pos he] at hv
      cases hv
    · rw [if_neg he] at hv
      exact ⟨he, hv⟩
  · intro req s
    exact run_tool_call_sources_append env srcLimit budgets req s
  · have hlen := run_tool_calls_sources_len env srcLimit budgets reqs s0
    rw [hsrc] at hlen
    simpa using hlen

/-- Witness for the amended C3 theorem at the concrete two-dispatch
sequence of the counterexample. -/
theorem sources_invariant_amended_check :
    (run_tool_calls witnessEnv 6 (mainBudgets 2 3)
        [⟨"s1", "web_search", .search "q6" 10⟩,
          ⟨"s2", "fetch_url", .fetch "https://b.example/7" 4000⟩]
        initToolState).sources.Nodup
    ∧ (run_tool_calls witnessEnv 6 (mainBudgets 2 3)
        [⟨"s1", "web_search", .search "q6" 10⟩,
          ⟨"s2", "fetch_url", .fetch "https://b.example/7" 4000⟩]
        initToolState).sources.length ≤ 6 + 2 :=
  ⟨(sources_invariant_amended witnessEnv 6 (mainBudgets 2 3)
      [⟨"s1", "web_search", .search "q6" 10⟩,
        ⟨"s2", "fetch_url", .fetch "https://b.example/7" 4000⟩]
      initToolState rfl rfl).1,
    (sources_invariant_amended witnessEnv 6 (mainBudgets 2 3)
      [⟨"s1", "web_search", .search "q6" 10⟩,
        ⟨"s2", "fetch_url", .fetch "https://b.example/7" 4000⟩]
      initToolState rfl rfl).2.2.2⟩

theorem agentLoopAux_ceiling (menv : ModelEnv) (env : Env) (srcLimit : Int)
    (budgets : String → Option Int)
    (halways : ∀ h : List Turn, (menv.model h).tool_calls ≠ []) :
    ∀ (n stepCount : Nat), 7 - stepCount ≤ n → stepCount ≤ 6 →
      ∀ (hist : List Turn) (s : ToolState),
        (agentLoopAux menv env srcLimit budgets hist s stepCount).2.2.1 = 7
        ∧ (agentLoopAux menv env srcLimit budgets hist s stepCount).2.2.2 = .ceiling
        ∧ ∃ pre, (agentLoopAux menv env srcLimit budgets hist s stepCount).1
            = pre ++ [ceilingTurn] := by
  intro n
  induction n with
  | zero => intro stepCount h1 h2 hist s; omega
  | succ n ih =>
      intro stepCount h1 h2 hist s
      rw [agentLoopAux]
      simp only [if_neg (halways hist)]
      by_cases hc : 6 < stepCount + 1
      · rw [dif_pos hc]
        have h6 : stepCount = 6 := by omega
        subst h6
        exact ⟨rfl, rfl, _, rfl⟩
      · rw [dif_neg hc]
        exact ih (stepCount + 1) (by omega) (by omega) _ _

theorem runUserTurn_ceiling (menv : ModelEnv) (env : Env) (srcLimit : Int)
    (budgets : String → Option Int) (flag : Bool) (hist0 : List Turn)
    (userText : String) (s0 : ToolState)
    (halways : ∀ h : List Turn, (menv.model h).tool_calls ≠ []) :
    (runUserTurn menv env srcLimit budgets flag hist0 userText s0).2.2.1 = 7
    ∧ ∃ (pre : List Turn) (srcs : List String),
        (runUserTurn menv env srcLimit budgets flag hist0 userText s0).1
          = pre ++ [ceilingTurn,
              { role := "assistant",
                content := some (print_final_answer menv flag srcLimit
                  (pre ++ [ceilingTurn]) srcs) }]
        ∧ (runUserTurn menv env srcLimit budgets flag hist0 userText s0).2.2.2
          = print_final_answer menv flag srcLimit (pre ++ [ceilingTurn]) srcs := by
  obtain ⟨hsteps, hexit, pre, hpre⟩ :=
    agentLoopAux_ceiling menv env srcLimit budgets halways 7 0 (by omega) (by omega)
      (hist0 ++ [{ role := "user", content := some userText }]) (resetPerTurn s0)
  simp only [runUserTurn, hexit]
  refine ⟨hsteps, pre,
    (agentLoopAux menv env srcLimit budgets
      (hist0 ++ [{ role := "user", content := some userText }]) (resetPerTurn s0) 0).2.1.sources,
    ?_, ?_⟩
  · rw [hpre, List.append_assoc]
    rfl
  · rw [hpre]

theorem print_final_answer_nonempty (menv : ModelEnv) (flag : Bool) (srcLimit : Int)
    (hist : List Turn) (sources : List String)
    (h : menv.finalContent (hist ++ [finalDirectiveTurn]) ≠ "") :
    print_final_answer menv flag srcLimit hist sources ≠ "" := by
  unfold print_final_answer
  by_cases hc : flag = true ∧ sources ≠ []
  · rw [if_pos hc]
    unfold append_sources_to_text
    rw [if_neg hc.2]
    intro heq
    have hlen := congrArg String.length heq
    rw [String.length_append, String.length_append] at hlen
    have h11 : ("\n\nSources:\n" : String).length = 11 := rfl
    have h0 : ("" : String).length = 0 := rfl
    omega
  · rw [if_neg hc]
    exact h

/-- Counterexample to claim C2: with a simulated model that requests a
tool call on every reply, the loop executes SEVEN tool batches, not six —
the ceiling check step_count > 6 first fires after the seventh
iteration. -/
theorem step_ceiling_seven_not_six :
    (runUserTurn alwaysToolModel witnessEnv 6 (mainBudgets 2 3) true [] "hi"
        initToolState).2.2.1 = 7
    ∧ ¬ ((runUserTurn alwaysToolModel witnessEnv 6 (mainBudgets 2 3) true [] "hi"
        initToolState).2.2.1 = 6) := by
  have h := runUserTurn_ceiling alwaysToolModel witnessEnv 6 (mainBudgets 2 3) true [] "hi"
    initToolState (fun _ => List.cons_ne_nil _ _)
  refine ⟨h.1, ?_⟩
  rw [h.1]
  omega

/-- Claim C2 (amended): when the simulated model returns a tool-call
request on every reply, the loop stops issuing further tool-enabled model
calls after exactly SEVEN tool-executing iterations (the ceiling check
fires once step_count exceeds 6, i.e. after the seventh batch), appends
the synthetic system turn, and then produces the turn's answer by the
forced tools-disabled final call, appended as an assistant turn; that
answer is non-empty whenever the forced call returns non-empty text. -/
theorem step_ceiling_terminates_after_seven (menv : ModelEnv) (env : Env)
    (srcLimit : Int) (budgets : String → Option Int) (flag : Bool)
    (hist0 : List Turn) (userText : String) (s0 : ToolState)
    (halways : ∀ h : List Turn, (menv.model h).tool_calls ≠ []) :
    (runUserTurn menv env srcLimit budgets flag hist0 userText s0).2.2.1 = 7
    ∧ (∃ (pre : List Turn) (srcs : List String),
        (runUserTurn menv env srcLimit budgets flag hist0 userText s0).1
          = pre ++ [ceilingTurn,
              { role := "assistant",
                content := some (print_final_answer menv flag srcLimit
                  (pre ++ [ceilingTurn]) srcs) }]
        ∧ (runUserTurn menv env srcLimit budgets flag hist0 userText s0).2.2.2
          = print_final_answer menv flag srcLimit (pre ++ [ceilingTurn]) srcs)
    ∧ (∀ (hist : List Turn) (sources : List String),
        menv.finalContent (hist ++ [finalDirectiveTurn]) ≠ "" →
        print_final_answer menv flag srcLimit hist sources ≠ "") :=
  ⟨(runUserTurn_ceiling menv env srcLimit budgets flag hist0 userText s0 halways).1,
    (runUserTurn_ceiling menv env srcLimit budgets flag hist0 userText s0 halways).2,
    fun hist sources h => print_final_answer_nonempty menv flag srcLimit hist sources h⟩

/-- Witness for the amended C2 theorem at a concrete always-tool-calling
model. -/
theorem step_ceiling_terminates_after_seven_check :
    (runUserTurn alwaysToolModel witnessEnv 6 (mainBudgets 2 3) true [] "hi"
        initToolState).2.2.1 = 7
    ∧ print_final_answer alwaysToolModel true 6 [ceilingTurn] [] ≠ "" :=
  ⟨(step_ceiling_terminates_after_seven alwaysToolModel witnessEnv 6 (mainBudgets 2 3)
      true [] "hi" initToolState (fun _ => List.cons_ne_nil _ _)).1,
    (step_ceiling_terminates_after_seven alwaysToolModel witnessEnv 6 (mainBudgets 2 3)
      true [] "hi" initToolState (fun _ => List.cons_ne_nil _ _)).2.2 [ceilingTurn] [] (by decide)⟩

end AIKA
